import Mathlib

/-!
Shallow embedding of the sequential chunking-and-transcription pipeline of
src/audio_transcriber.py (class AudioTranscriber and the CLI entry point).

External effects are modelled by an explicit environment:
the filesystem size lookup, the audio decoder (pydub AudioSegment.from_file,
which can fail), the remote transcription service and the remote summary
service are oracle functions supplied in an Env record.  Exceptions are
modelled with Except, directory listings and file paths with String.
-/

namespace AudioTranscriber

/-- max_file_size_mb = 10, expressed in bytes: the Python code compares
st_size / (1024*1024) against 10 with exact float arithmetic, which for any
realistic size (below 2^53 bytes) is equivalent to st_size <= 10*1024*1024. -/
def maxFileSizeBytes : Nat := 10 * 1024 * 1024

/-- chunk_length_ms = 10 * 60 * 1000 (10 minutes). -/
def chunkLengthMs : Nat := 10 * 60 * 1000

/-- test_duration_ms = 60 * 1000 (1 minute, test mode). -/
def testDurationMs : Nat := 60 * 1000

deriving instance DecidableEq for Except

/-- Oracle environment standing for the outside world. -/
structure Env where
  listing : List String
  sizeBytes : String → Nat
  durationMs : String → Except String Nat
  service : String → Except String String
  summaryService : String → Except String String

/-! ### SequenceLocator: find_sequential_files (lines 39-55) -/

/-- Case-insensitive character comparison, as re.IGNORECASE folds ASCII case. -/
def charEqCI (a b : Char) : Bool := a.toLower == b.toLower

/-- Case-insensitive list comparison (same length required). -/
def listEqCI : List Char → List Char → Bool
  | [], [] => true
  | a :: as, b :: bs => charEqCI a b && listEqCI as bs
  | _, _ => false

/-- int() on a run of ASCII decimal digits. -/
def digitsToNat (ds : List Char) : Nat :=
  ds.foldl (fun a c => 10 * a + (c.toNat - ('0').toNat)) 0

/-- After the underscore, the regex requires a nonempty digit run followed by
the literal extension, matched case-insensitively; returns the digit run. -/
def matchTail (rest : List Char) : Option (List Char) :=
  let ds := rest.takeWhile Char.isDigit
  let suf := rest.dropWhile Char.isDigit
  if !ds.isEmpty && listEqCI suf ['.', 'm', '4', 'a'] then some ds else none

/-- re.match of the compiled pattern re.escape(pre) ++ underscore ++ digits ++
dot-m4a anchored at both ends with re.IGNORECASE: the escaped prefix is
matched literally but case-insensitively, then an underscore, then the
digit group, then the extension.  Returns the parsed sequence number. -/
def matchSeqNum (pre name : String) : Option Nat :=
  let np := pre.toList
  let nm := name.toList
  if listEqCI (nm.take np.length) np then
    match nm.drop np.length with
    | '_' :: rest => (matchTail rest).map digitsToNat
    | _ => none
  else none

/-- directory.glob with pattern star-dot-m4a on a POSIX filesystem:
case-sensitive, so only names ending in the lowercase extension are seen. -/
def globM4a (name : String) : Bool := ['.', 'm', '4', 'a'].isSuffixOf name.toList

/-- The loop of lines 47-51: glob the directory, regex-match each name,
collect (sequence number, path) pairs. -/
def locCandidates (pre : String) (listing : List String) : List (Nat × String) :=
  listing.filterMap fun n =>
    if globM4a n then (matchSeqNum pre n).map fun k => (k, n) else none

/-- find_sequential_files: collect the matching (seq, path) pairs, stable sort
by sequence number (list.sort with a key is a stable sort), return the paths. -/
def find_sequential_files (pre : String) (listing : List String) : List String :=
  (List.insertionSort (fun a b : Nat × String => a.1 ≤ b.1)
    (locCandidates pre listing)).map Prod.snd

/-! ### ChunkPlanner: get_chunk_count (lines 61-73) -/

/-- len(make_chunks(audio, L)) = ceil(duration / L), as integer arithmetic. -/
def numChunks (d : Nat) : Nat := (d + chunkLengthMs - 1) / chunkLengthMs

/-- get_chunk_count: 1 in test mode, 1 if the size is within the ceiling,
otherwise decode the audio and count fixed-length windows. -/
def get_chunk_count (env : Env) (testMode : Bool) (p : String) : Except String Nat :=
  if testMode then .ok 1
  else if env.sizeBytes p ≤ maxFileSizeBytes then .ok 1
  else (env.durationMs p).map numChunks

/-! ### SegmentMaterializer: chunk_audio_file (lines 75-108) -/

/-- One materialized segment artifact: its path and its audio duration. -/
structure Segment where
  path : String
  durMs : Nat
deriving DecidableEq

/-- Path.stem: the final component without its last extension. -/
def stem (n : String) : String :=
  match n.toList.reverse.dropWhile (fun c => c ≠ '.') with
  | '.' :: [] => n
  | '.' :: rest => String.mk rest.reverse
  | _ => n

/-- Zero-padded 3-digit ordinal, as the format spec 03d. -/
def pad3 (n : Nat) : String :=
  if n < 10 then ("00") ++ toString n
  else if n < 100 then ("0") ++ toString n
  else toString n

/-- chunk_audio_file: always decodes the source first (AudioSegment.from_file,
line 79); in test mode exports one truncated sample under the workspace; for a
file within the size ceiling returns the original path; otherwise exports one
artifact per fixed-length window under the workspace. -/
def chunk_audio_file (env : Env) (testMode : Bool) (p tempDir : String) :
    Except String (List Segment) :=
  match env.durationMs p with
  | .error e => .error e
  | .ok d =>
    if testMode then
      .ok [⟨tempDir ++ ("/") ++ stem p ++ ("_test_1min.mp4"), min d testDurationMs⟩]
    else if env.sizeBytes p ≤ maxFileSizeBytes then
      .ok [⟨p, d⟩]
    else
      .ok ((List.range (numChunks d)).map fun i =>
        ⟨tempDir ++ ("/") ++ stem p ++ ("_chunk_") ++ pad3 (i + 1) ++ (".mp4"),
         min chunkLengthMs (d - i * chunkLengthMs)⟩)

/-! ### TranscriptionDriver: transcribe_audio (lines 110-132) -/

/-- Python str.strip(): drop whitespace from both ends. -/
def strTrim (s : String) : String :=
  String.mk (((s.toList.dropWhile Char.isWhitespace).reverse.dropWhile
    Char.isWhitespace).reverse)

/-- The error sentinel string returned when a transcription call fails. -/
def errorMarker (name : String) : String :=
  ("[ERROR: Could not transcribe ") ++ name ++ ("]")

/-- transcribe_audio together with the list of remote calls it performs: the
body opens the artifact and calls the service exactly once inside the try
block; an exception is captured and turned into the error sentinel. -/
def transcribe_audioT (service : String → Except String String) (p : String) :
    String × List String :=
  match service p with
  | .ok t => (strTrim t, [p])
  | .error _ => (errorMarker p, [p])

/-- The returned transcript string of transcribe_audio. -/
def transcribe_audio (service : String → Except String String) (p : String) : String :=
  (transcribe_audioT service p).1

/-! ### BatchAggregator: process_sequential_files (lines 134-185) -/

/-- Python truthiness of a string: nonempty. -/
def strNonEmpty (t : String) : Bool := !t.toList.isEmpty

/-- str.startswith, on the character lists. -/
def strStartsWith (t pre : String) : Bool := pre.toList.isPrefixOf t.toList

/-- The filter on line 165: keep a transcript only if it is truthy and does
not start with the error sentinel. -/
def keepTranscript (t : String) : Bool :=
  strNonEmpty t && !(strStartsWith t ("[ERROR"))

/-- The file_transcripts list built by lines 164-166. -/
def successTexts (outs : List String) : List String := outs.filter keepTranscript

/-- The per-file block header of line 173, including the test-mode marker and
the trailing newline of the f-string. -/
def fileHeader (testMode : Bool) (i : Nat) (name : String) : String :=
  ("=== ") ++ (if testMode then ("🧪 TEST ") else ("")) ++ ("File ")
    ++ toString i ++ (": ") ++ name ++ (" ===\n")

/-- Planning pass of line 144: sum get_chunk_count over all files; a decode
exception during planning propagates. -/
def planTotal (env : Env) (testMode : Bool) : List String → Except String Nat
  | [] => .ok 0
  | p :: rest => do
    let c ← get_chunk_count env testMode p
    let r ← planTotal env testMode rest
    .ok (c + r)

/-- The execution loop of lines 151-176 over the remaining files, given the
1-based index of the next file and the number of chunks attempted so far.
Returns (per-file blocks or the propagated exception, artifact paths sent to
the service in order, progress updates (current_chunk, total) in order). -/
def runFiles (env : Env) (testMode : Bool) (tempDir : String) (total : Nat) :
    List String → Nat → Nat →
      Except String (List String) × List String × List (Nat × Nat)
  | [], _, _ => (.ok [], [], [])
  | p :: rest, i, cur =>
    match chunk_audio_file env testMode p tempDir with
    | .error e => (.error e, [], [])
    | .ok segs =>
      let atts := segs.map Segment.path
      let outs := atts.map (transcribe_audio env.service)
      let evs := (List.range segs.length).map fun j => (cur + j + 1, total)
      let texts := successTexts outs
      let blocks :=
        if texts.isEmpty then []
        else [fileHeader testMode i p ++ String.intercalate (" ") texts]
      let r2 := runFiles env testMode tempDir total rest (i + 1) (cur + segs.length)
      (r2.1.map fun bs => blocks ++ bs, atts ++ r2.2.1, evs ++ r2.2.2)

/-- Observable outcome of one process_sequential_files run. -/
structure RunResult where
  result : Except String String
  attempts : List String
  events : List (Nat × Nat)
  total : Option Nat
  cleaned : Bool

/-- process_sequential_files: make the workspace, plan the total, run the
files, join the blocks with a blank line; the finally block removes the
workspace on every exit path, so cleaned is true in every branch. -/
def process_sequential_files (env : Env) (testMode : Bool) (tempDir : String)
    (files : List String) : RunResult :=
  match planTotal env testMode files with
  | .error e => ⟨.error e, [], [], none, true⟩
  | .ok t =>
    ⟨(runFiles env testMode tempDir t files 1 0).1.map (String.intercalate ("\n\n")),
     (runFiles env testMode tempDir t files 1 0).2.1,
     (runFiles env testMode tempDir t files 1 0).2.2, some t, true⟩

/-! ### Summary and CLI: generate_summary, save_outputs, main (lines 187-294) -/

/-- generate_summary: single remote call inside try; on success the content is
trimmed and in test mode prefixed with the test marker; any exception is
captured and turned into the summary error sentinel. -/
def generate_summary (env : Env) (testMode : Bool) (transcript : String) : String :=
  match env.summaryService transcript with
  | .ok c =>
    if testMode then ("🧪 TEST MODE SUMMARY (1 minute sample)\n\n") ++ strTrim c
    else strTrim c
  | .error _ => ("[ERROR: Could not generate summary]")

/-- Observable outcome of one invocation of main(): the value main returns
(None or 1), and whether the transcript and summary files were written. -/
structure MainResult where
  ret : Option Nat
  wroteTranscript : Bool
  wroteSummary : Bool
deriving DecidableEq

/-- main (lines 242-291): discover files; with no match, print and return None
(line 263); run the pipeline inside try, an escaped exception is caught and 1
is returned (line 291); an empty transcript prints and returns None (line
276); otherwise summarize and save_outputs writes both output files. -/
def mainModel (env : Env) (testMode : Bool) (pre tempDir : String) : MainResult :=
  let files := find_sequential_files pre env.listing
  if files.isEmpty then ⟨none, false, false⟩
  else
    match (process_sequential_files env testMode tempDir files).result with
    | .error _ => ⟨some 1, false, false⟩
    | .ok t =>
      if !strNonEmpty t then ⟨none, false, false⟩
      else
        let _ := generate_summary env testMode t
        ⟨none, true, true⟩

/-- The module bottom (lines 293-294) calls main() and discards its return
value without sys.exit, so the interpreter always exits with status 0. -/
def scriptExitCode (env : Env) (testMode : Bool) (pre tempDir : String) : Nat :=
  let _ := mainModel env testMode pre tempDir
  0

/-! ### Definitions taken from the words of the specification, for the
refinement claims (clearly separated from the source translation above). -/

/-- Modelled from the spec: a name matches when it is exactly the prefix
(matched literally), an underscore, a nonempty digit run, a dot and the audio
extension matched case-insensitively. -/
def specMatch (pre name : String) : Bool :=
  let np := pre.toList
  let nm := name.toList
  if nm.take np.length == np then
    match nm.drop np.length with
    | '_' :: rest =>
      let ds := rest.takeWhile Char.isDigit
      let suf := rest.dropWhile Char.isDigit
      !ds.isEmpty && listEqCI suf ['.', 'm', '4', 'a']
    | _ => false
  else false

/-- Modelled from the spec: the per-file list of successful segment texts,
where successful means the remote service call returned Ok; texts are the
trimmed returned strings, in ordinal order. -/
def specFileTexts (env : Env) (testMode : Bool) (p tempDir : String) :
    Except String (List String) := do
  let segs ← chunk_audio_file env testMode p tempDir
  .ok ((segs.map Segment.path).filterMap fun a =>
    match env.service a with
    | .ok t => some (strTrim t)
    | .error _ => none)

/-- Modelled from the spec: blocks for the files that have at least one
successful segment, each a header followed by the successful texts joined
with single spaces, in file order. -/
def specBlocks (env : Env) (testMode : Bool) (tempDir : String) :
    List String → Nat → Except String (List String)
  | [], _ => .ok []
  | p :: rest, i => do
    let texts ← specFileTexts env testMode p tempDir
    let bs ← specBlocks env testMode tempDir rest (i + 1)
    .ok ((if texts.isEmpty then []
          else [fileHeader testMode i p ++ String.intercalate (" ") texts]) ++ bs)

/-- Modelled from the spec: the combined transcript as claim C1 words it,
blocks joined with a blank-line separator. -/
def specCombinedTranscript (env : Env) (testMode : Bool) (tempDir : String)
    (files : List String) : Except String String :=
  (specBlocks env testMode tempDir files 1).map (String.intercalate ("\n\n"))

/-! ### Declarative per-file view of the combined transcript, used to state
the aggregation claims about process_sequential_files. -/

/-- The block contributed by one file: none when its materialization fails or
no segment text passes the filter, otherwise the header plus the kept texts
joined with single spaces. -/
def fileBlock (env : Env) (testMode : Bool) (tempDir : String) (i : Nat)
    (p : String) : Option String :=
  match chunk_audio_file env testMode p tempDir with
  | .error _ => none
  | .ok segs =>
    let texts := successTexts ((segs.map Segment.path).map (transcribe_audio env.service))
    if texts.isEmpty then none
    else some (fileHeader testMode i p ++ String.intercalate (" ") texts)

/-- The blocks of all files from 1-based index i on, skipping files that
contribute none. -/
def blocksFrom (env : Env) (testMode : Bool) (tempDir : String) :
    List String → Nat → List String
  | [], _ => []
  | p :: rest, i =>
    (fileBlock env testMode tempDir i p).toList ++ blocksFrom env testMode tempDir rest (i + 1)

/-- The per-file planned chunk counts, used to state the progress total. -/
def chunkCounts (env : Env) (testMode : Bool) : List String → Except String (List Nat)
  | [] => .ok []
  | p :: rest => do
    let c ← get_chunk_count env testMode p
    let cs ← chunkCounts env testMode rest
    .ok (c :: cs)

/-- The artifact paths a list of files materializes to, when every
materialization succeeds. -/
def plannedArtifacts (env : Env) (testMode : Bool) (tempDir : String) :
    List String → Option (List String)
  | [] => some []
  | p :: rest =>
    match chunk_audio_file env testMode p tempDir with
    | .error _ => none
    | .ok segs => (plannedArtifacts env testMode tempDir rest).map (segs.map Segment.path ++ ·)

/-- The pattern the code actually accepts: the case-sensitive glob joined with
the case-insensitive anchored regex. -/
def codeMatch (pre n : String) : Bool := globM4a n && (matchSeqNum pre n).isSome

/-- The parsed integer sequence number of a matching name (0 as default). -/
def seqKey (pre n : String) : Nat := (matchSeqNum pre n).getD 0

instance : IsTotal (Nat × String) (fun a b => a.1 ≤ b.1) :=
  ⟨fun a b => Nat.le_total a.1 b.1⟩

instance : IsTrans (Nat × String) (fun a b => a.1 ≤ b.1) :=
  ⟨fun _ _ _ => Nat.le_trans⟩

/-! ### Concrete environments for witnesses and counterexamples. -/

/-- Small files, fixed duration, every transcription succeeds with text hi. -/
def envOkHi : Env :=
  { listing := []
    sizeBytes := fun _ => 0
    durationMs := fun _ => .ok 1000
    service := fun _ => .ok (" hi ")
    summaryService := fun _ => .ok ("sum") }

/-- Small files, fixed duration, every transcription succeeds but returns an
empty text. -/
def envOkEmpty : Env :=
  { listing := []
    sizeBytes := fun _ => 0
    durationMs := fun _ => .ok 1000
    service := fun _ => .ok ("")
    summaryService := fun _ => .ok ("sum") }

/-- Small files; the artifact bad_1.m4a cannot be decoded, everything else
decodes and transcribes fine. -/
def envBadDecode : Env :=
  { listing := []
    sizeBytes := fun _ => 0
    durationMs := fun n => if n = ("bad_1.m4a") then .error ("decode") else .ok 1000
    service := fun _ => .ok ("hi")
    summaryService := fun _ => .ok ("sum") }

/-- An empty directory. -/
def envEmptyDir : Env :=
  { listing := []
    sizeBytes := fun _ => 0
    durationMs := fun _ => .ok 1000
    service := fun _ => .ok ("hi")
    summaryService := fun _ => .ok ("sum") }

/-- A directory holding only the undecodable file. -/
def envBadListed : Env := { envBadDecode with listing := [("bad_1.m4a")] }

/-- A directory holding one healthy file. -/
def envOkListed : Env := { envOkHi with listing := [("b_1.m4a")] }

/-- One file at exactly the size ceiling, one file one byte over it with a
25 minute duration. -/
def envBoundary : Env :=
  { listing := []
    sizeBytes := fun n => if n = ("big_1.m4a") then 10485761 else 10485760
    durationMs := fun _ => .ok 1500000
    service := fun _ => .ok ("hi")
    summaryService := fun _ => .ok ("sum") }

/-! ## Theorems -/

/-! ### Helper lemmas (shared, not tied to a single claim) -/

theorem numChunks_eq_ceil (d : Nat) :
    numChunks d = Nat.ceil ((d : ℚ) / (chunkLengthMs : ℚ)) := by
  rcases Nat.eq_zero_or_pos d with h0 | hpos
  · subst h0
    simp [numChunks, chunkLengthMs]
  · obtain ⟨m, rfl⟩ := Nat.exists_eq_succ_of_ne_zero (Nat.pos_iff_ne_zero.mp hpos)
    have hL : 0 < chunkLengthMs := by norm_num [chunkLengthMs]
    have hform : numChunks (m + 1) = m / chunkLengthMs + 1 := by
      unfold numChunks
      have hsplit : m + 1 + chunkLengthMs - 1 = m + chunkLengthMs := by omega
      rw [hsplit, Nat.add_div_right _ hL]
    have h1 : m / chunkLengthMs * chunkLengthMs ≤ m :=
      Nat.div_mul_le_self _ _
    have h2 : m < m / chunkLengthMs * chunkLengthMs + chunkLengthMs := by
      have h2a := (Nat.div_lt_iff_lt_mul hL).mp (Nat.lt_succ_self (m / chunkLengthMs))
      rwa [Nat.succ_mul] at h2a
    have hql : m / chunkLengthMs * chunkLengthMs < m + 1 := by omega
    have hd2 : m + 1 ≤ m / chunkLengthMs * chunkLengthMs + chunkLengthMs := by omega
    rw [hform]
    symm
    have hne : m / chunkLengthMs + 1 ≠ 0 := Nat.succ_ne_zero _
    rw [Nat.ceil_eq_iff hne]
    have hLQ : (0 : ℚ) < (chunkLengthMs : ℚ) := by exact_mod_cast hL
    constructor
    · have hlt : (((m / chunkLengthMs : Nat)) : ℚ) < ((m + 1 : Nat) : ℚ) / (chunkLengthMs : ℚ) := by
        rw [lt_div_iff₀ hLQ]
        exact_mod_cast hql
      simpa using hlt
    · rw [div_le_iff₀ hLQ]
      have hcast : ((m + 1 : Nat) : ℚ) ≤
          ((m / chunkLengthMs * chunkLengthMs + chunkLengthMs : Nat) : ℚ) := by
        exact_mod_cast hd2
      push_cast at hcast ⊢
      linarith

theorem chunk_len_eq_count (env : Env) (tm : Bool) (p td : String) (c : Nat)
    (segs : List Segment)
    (hg : get_chunk_count env tm p = .ok c)
    (hc : chunk_audio_file env tm p td = .ok segs) : segs.length = c := by
  unfold get_chunk_count at hg
  unfold chunk_audio_file at hc
  cases hd : env.durationMs p with
  | error e => rw [hd] at hc; exact absurd hc (by simp)
  | ok d =>
    rw [hd] at hc
    cases tm with
    | true =>
      simp at hg hc
      subst hc
      simp
      omega
    | false =>
      by_cases hsz : env.sizeBytes p ≤ maxFileSizeBytes
      · simp [hsz] at hg hc
        subst hc
        simp
        omega
      · simp [hsz, hd, Except.map] at hg hc
        subst hc
        simp
        omega

theorem keep_errorMarker_false (p : String) :
    keepTranscript (errorMarker p) = false := by
  have hpre : strStartsWith (errorMarker p) ("[ERROR") = true := by
    unfold strStartsWith
    rw [List.isPrefixOf_iff_prefix]
    refine ⟨(": Could not transcribe ").toList ++ p.toList ++ ("]").toList, ?_⟩
    have hconc : ("[ERROR").toList ++ (": Could not transcribe ").toList
        = ("[ERROR: Could not transcribe ").toList := by decide
    simp [errorMarker, String.toList, String.data_append, ← hconc]
  unfold keepTranscript
  rw [hpre]
  simp

/-! ### Claim C5: transcribe_audio calls the service exactly once, trims on
success, returns the annotated error sentinel on failure, never raises. -/

/-- C5: for every service oracle and segment artifact, transcribe_audio makes
exactly one remote call (no retry); when the call returns text it returns that
text with surrounding whitespace trimmed; when the call fails it captures the
failure and returns the ERROR sentinel annotated with the artifact name,
returning normally instead of raising. -/
theorem transcribe_contract (s : String → Except String String) (p : String) :
    (transcribe_audioT s p).2 = [p]
    ∧ (∀ t, s p = .ok t → transcribe_audio s p = strTrim t)
    ∧ (∀ e, s p = .error e → transcribe_audio s p = errorMarker p) := by
  refine ⟨?_, ?_, ?_⟩
  · unfold transcribe_audioT
    cases s p <;> rfl
  · intro t ht
    simp [transcribe_audio, transcribe_audioT, ht]
  · intro e he
    simp [transcribe_audio, transcribe_audioT, he]

/-- Witness for C5 at concrete services, both branches exercised. -/
theorem transcribe_contract_witness :
    transcribe_audio (fun _ => .ok (" hi ")) ("f.mp4") = strTrim (" hi ")
    ∧ transcribe_audio (fun _ => .error ("net")) ("f.mp4") = errorMarker ("f.mp4") :=
  ⟨(transcribe_contract (fun _ => .ok (" hi ")) ("f.mp4")).2.1 (" hi ") rfl,
   (transcribe_contract (fun _ => .error ("net")) ("f.mp4")).2.2 ("net") rfl⟩

/-! ### Claim C8: the workspace is removed on every exit path. -/

/-- C8: for every environment, mode and file list, the run records the
workspace teardown, both when the run returns a transcript and when an
exception propagates out of the execution: cleanup is unconditional. -/
theorem cleanup_unconditional (env : Env) (tm : Bool) (td : String)
    (files : List String) :
    (process_sequential_files env tm td files).cleaned = true := by
  unfold process_sequential_files
  split <;> rfl

/-! ### Claim C9: test mode plans one TRUNCATED_SAMPLE segment of at most
60000 ms written under the workspace. -/

/-- C9: in test mode the plan is one segment regardless of size and duration,
and materialization yields exactly one artifact, placed under the workspace
directory, holding at most the first 60000 ms of the source audio. -/
theorem test_mode_plan (env : Env) (p td : String) (d : Nat)
    (h : env.durationMs p = .ok d) :
    get_chunk_count env true p = .ok 1
    ∧ chunk_audio_file env true p td
        = .ok [⟨td ++ ("/") ++ stem p ++ ("_test_1min.mp4"), min d testDurationMs⟩]
    ∧ ∀ segs, chunk_audio_file env true p td = .ok segs →
        segs.length = 1 ∧ ∀ s ∈ segs, s.durMs ≤ testDurationMs ∧
          ∃ rest, s.path = td ++ ("/") ++ rest := by
  have hchunk : chunk_audio_file env true p td
      = .ok [⟨td ++ ("/") ++ stem p ++ ("_test_1min.mp4"), min d testDurationMs⟩] := by
    simp [chunk_audio_file, h]
  refine ⟨rfl, hchunk, ?_⟩
  intro segs hs
  rw [hchunk] at hs
  injection hs with hs
  subst hs
  refine ⟨rfl, ?_⟩
  intro s hs
  rcases List.mem_singleton.mp hs with rfl
  refine ⟨Nat.min_le_right _ _, stem p ++ ("_test_1min.mp4"), ?_⟩
  simp [String.append_assoc]

/-- Witness for C9 at a concrete environment and file. -/
theorem test_mode_plan_witness :
    chunk_audio_file envOkHi true ("a_1.m4a") ("/tmp/w")
      = .ok [⟨("/tmp/w") ++ ("/") ++ stem ("a_1.m4a") ++ ("_test_1min.mp4"),
             min 1000 testDurationMs⟩] :=
  (test_mode_plan envOkHi ("a_1.m4a") ("/tmp/w") 1000 rfl).2.1

/-! ### Claim C2: the non-test chunk plan, with the inclusive 10 MB boundary
and the ceiling of duration over the 10 minute window. -/

/-- C2: outside test mode, a file whose byte size is at most the 10 MB ceiling
(boundary inclusive) plans exactly one whole-file segment (the original path,
uncut), and a file over the ceiling plans ceil(duration / windowLength)
fixed-length split segments. -/
theorem chunk_plan (env : Env) (p td : String) (d : Nat)
    (hd : env.durationMs p = .ok d) :
    (env.sizeBytes p ≤ maxFileSizeBytes →
      get_chunk_count env false p = .ok 1
      ∧ chunk_audio_file env false p td = .ok [⟨p, d⟩])
    ∧ (maxFileSizeBytes < env.sizeBytes p →
      get_chunk_count env false p = .ok (numChunks d)
      ∧ numChunks d = Nat.ceil ((d : ℚ) / (chunkLengthMs : ℚ))
      ∧ ∃ segs, chunk_audio_file env false p td = .ok segs
          ∧ segs.length = numChunks d) := by
  constructor
  · intro hsz
    constructor
    · simp [get_chunk_count, hsz]
    · simp [chunk_audio_file, hd, hsz]
  · intro hsz
    have hsz' : ¬ env.sizeBytes p ≤ maxFileSizeBytes := by omega
    refine ⟨?_, numChunks_eq_ceil d, ?_⟩
    · simp [get_chunk_count, hsz', hd, Except.map]
    · have hchunk : chunk_audio_file env false p td
          = .ok ((List.range (numChunks d)).map fun i =>
              ⟨td ++ ("/") ++ stem p ++ ("_chunk_") ++ pad3 (i + 1) ++ (".mp4"),
               min chunkLengthMs (d - i * chunkLengthMs)⟩) := by
        simp [chunk_audio_file, hd, hsz']
      exact ⟨_, hchunk, by simp⟩

/-- Witness for C2: one file exactly at the ceiling plans 1 whole segment,
one file a single byte over it (25 minutes long) plans 3 split segments. -/
theorem chunk_plan_witness :
    get_chunk_count envBoundary false ("small_1.m4a") = .ok 1
    ∧ get_chunk_count envBoundary false ("big_1.m4a") = .ok (numChunks 1500000) :=
  ⟨((chunk_plan envBoundary ("small_1.m4a") ("/tmp/w") 1500000 rfl).1 (by decide)).1,
   ((chunk_plan envBoundary ("big_1.m4a") ("/tmp/w") 1500000 rfl).2 (by decide)).1⟩

/-! ### Claim C10: empty and ERROR-prefixed texts are excluded from the join
exactly as failed segments are. -/

/-- C10: the aggregation filter of lines 164-166 drops a segment text that is
empty or starts with the ERROR sentinel exactly as it drops a failed segment
outcome, and keeps every other text in place. -/
theorem filter_excludes (pre post : List String) (t p : String) :
    ((t.toList = [] ∨ strStartsWith t ("[ERROR") = true) →
      successTexts (pre ++ t :: post) = successTexts (pre ++ errorMarker p :: post))
    ∧ (t.toList ≠ [] → strStartsWith t ("[ERROR") = false →
      successTexts (pre ++ t :: post) = successTexts pre ++ t :: successTexts post) := by
  have hkeepE := keep_errorMarker_false p
  constructor
  · intro h
    have hk : keepTranscript t = false := by
      unfold keepTranscript strNonEmpty
      rcases h with h | h
      · simp only [String.toList] at h
        simp [h]
      · simp [h]
    simp [successTexts, List.filter_append, List.filter_cons, hk, hkeepE]
  · intro h1 h2
    have hk : keepTranscript t = true := by
      unfold keepTranscript strNonEmpty
      simp only [String.toList] at h1
      simp [h1, h2]
    simp [successTexts, List.filter_append, List.filter_cons, hk]

/-- Witness for C10, both directions at concrete texts. -/
theorem filter_excludes_witness :
    successTexts ([("a")] ++ ("") :: [("b")])
        = successTexts ([("a")] ++ errorMarker ("f.mp4") :: [("b")])
    ∧ successTexts ([("a")] ++ ("hi") :: [("b")])
        = successTexts [("a")] ++ ("hi") :: successTexts [("b")] :=
  ⟨(filter_excludes [("a")] [("b")] ("") ("f.mp4")).1 (Or.inl rfl),
   (filter_excludes [("a")] [("b")] ("hi") ("f.mp4")).2 (by decide) (by decide)⟩

/-! ### Claim C3: what SequenceLocator accepts and how it orders. -/

theorem locCandidates_map_snd (pre : String) :
    ∀ l : List String,
      (locCandidates pre l).map Prod.snd = l.filter fun n => codeMatch pre n
  | [] => by simp [locCandidates]
  | n :: ns => by
    have ih := locCandidates_map_snd pre ns
    cases hg : globM4a n
    · simp [locCandidates, List.filterMap_cons, hg, codeMatch] at ih ⊢
      exact ih
    · cases hm : matchSeqNum pre n
      · simp [locCandidates, List.filterMap_cons, hg, hm, codeMatch] at ih ⊢
        exact ih
      · simp [locCandidates, List.filterMap_cons, hg, hm, codeMatch] at ih ⊢
        exact ih

theorem locCandidates_inv (pre : String) (l : List String) :
    ∀ x ∈ locCandidates pre l, matchSeqNum pre x.2 = some x.1 := by
  intro x hx
  rcases List.mem_filterMap.mp hx with ⟨n, _, hfn⟩
  by_cases hg : globM4a n
  · simp [hg] at hfn
    rcases hfn with ⟨k, hk, rfl⟩
    simpa using hk
  · simp [hg] at hfn

/-- C3 (amended): find_sequential_files returns exactly the listed names
accepted by the glob-plus-regex pattern (the final extension must be the
lowercase .m4a because the directory scan is case-sensitive; the prefix is
matched with regex-special characters escaped and ASCII case folded), as a
permutation-exact filter of the listing, sorted ascending by the parsed
integer sequence number. -/
theorem find_files_characterization (pre : String) (listing : List String) :
    (find_sequential_files pre listing).Perm
        (listing.filter fun n => codeMatch pre n)
    ∧ List.Sorted (fun a b => seqKey pre a ≤ seqKey pre b)
        (find_sequential_files pre listing) := by
  constructor
  · have hperm := (List.perm_insertionSort
      (fun a b : Nat × String => a.1 ≤ b.1) (locCandidates pre listing)).map Prod.snd
    rw [locCandidates_map_snd] at hperm
    exact hperm
  · have hs := List.sorted_insertionSort
      (fun a b : Nat × String => a.1 ≤ b.1) (locCandidates pre listing)
    have hmem : ∀ x ∈ List.insertionSort (fun a b : Nat × String => a.1 ≤ b.1)
        (locCandidates pre listing), matchSeqNum pre x.2 = some x.1 :=
      fun x hx => locCandidates_inv pre listing x
        ((List.perm_insertionSort _ _).subset hx)
    unfold find_sequential_files
    rw [List.Sorted, List.pairwise_map]
    exact hs.imp_of_mem fun ha hb hr => by
      simp [seqKey, hmem _ ha, hmem _ hb]
      exact hr

/-- Counterexample for C3 as stated: with prefix p, the name p_1.M4A fits the
claimed pattern (case-insensitive extension, literal prefix) yet the code
excludes it, while P_2.m4a does not fit the claimed pattern yet the code
returns it. -/
theorem find_files_counterexample :
    specMatch ("p") ("p_1.M4A") = true
    ∧ find_sequential_files ("p") [("p_1.M4A")] = []
    ∧ specMatch ("p") ("P_2.m4a") = false
    ∧ find_sequential_files ("p") [("P_2.m4a")] = [("P_2.m4a")] := by decide

/-! ### Claim C1: shape of the combined transcript. -/

theorem runFiles_blocks (env : Env) (tm : Bool) (td : String) (T : Nat) :
    ∀ (fs : List String) (i cur : Nat) (bs : List String),
      (runFiles env tm td T fs i cur).1 = .ok bs →
      bs = blocksFrom env tm td fs i
  | [], i, cur, bs => by
    intro h
    simp [runFiles] at h
    simp [blocksFrom, h]
  | p :: rest, i, cur, bs => by
    intro h
    unfold runFiles at h
    cases hc : chunk_audio_file env tm p td with
    | error e => rw [hc] at h; exact absurd h (by simp)
    | ok segs =>
      rw [hc] at h
      simp only [] at h
      cases hr : (runFiles env tm td T rest (i + 1) (cur + segs.length)).1 with
      | error e => rw [hr] at h; exact absurd h (by simp [Except.map])
      | ok bs' =>
        rw [hr] at h
        simp [Except.map] at h
        have ih := runFiles_blocks env tm td T rest (i + 1) (cur + segs.length) bs' hr
        subst h
        unfold blocksFrom
        rw [← ih]
        congr 1
        unfold fileBlock
        rw [hc]
        by_cases ht : successTexts (List.map (transcribe_audio env.service ∘ Segment.path) segs) = []
        · simp [ht, List.map_map]
        · simp [ht, List.map_map]

/-- C1 (amended): whenever process_sequential_files returns a combined
transcript, it equals the blocks of the files that have at least one kept
segment text (nonempty and not starting with the ERROR sentinel), in file
order, each block a header naming the 1-based file index and filename (with
the test marker in test mode) followed by the kept texts joined with single
spaces in ordinal order, blocks joined by a blank line, files with no kept
text skipped without failing the batch. -/
theorem process_combined (env : Env) (tm : Bool) (td : String)
    (files : List String) (s : String)
    (h : (process_sequential_files env tm td files).result = .ok s) :
    s = String.intercalate ("\n\n") (blocksFrom env tm td files 1) := by
  unfold process_sequential_files at h
  cases hp : planTotal env tm files with
  | error e => rw [hp] at h; exact absurd h (by simp)
  | ok t =>
    rw [hp] at h
    simp only [] at h
    cases hr : (runFiles env tm td t files 1 0).1 with
    | error e => rw [hr] at h; exact absurd h (by simp [Except.map])
    | ok bs =>
      rw [hr] at h
      simp [Except.map] at h
      rw [← h, runFiles_blocks env tm td t files 1 0 bs hr]

/-- Witness for C1 at a concrete run. -/
theorem process_combined_witness :
    ("=== File 1: b_1.m4a ===\nhi")
      = String.intercalate ("\n\n") (blocksFrom envOkHi false ("/tmp/w") [("b_1.m4a")] 1) :=
  process_combined envOkHi false ("/tmp/w") [("b_1.m4a")] _ (by decide)

/-- Counterexample for C1 as stated: a run whose only segment succeeds with an
empty text.  The claim (successful means the service call returned, per the
spec wording) predicts a block with a header and empty body, but the code
skips the file entirely and returns the empty transcript. -/
theorem process_spec_mismatch :
    (process_sequential_files envOkEmpty false ("/tmp/w") [("a_1.m4a")]).result
      = .ok ("")
    ∧ specCombinedTranscript envOkEmpty false ("/tmp/w") [("a_1.m4a")]
      = .ok ("=== File 1: a_1.m4a ===\n") := by
  exact ⟨by decide, by decide⟩

/-! ### Claim C4: what a decode failure aborts. -/

theorem runFiles_abort (env : Env) (tm : Bool) (td : String) (T : Nat) (e : String) :
    ∀ (fs1 : List String) (as : List String) (p : String) (fs2 : List String) (i cur : Nat),
      plannedArtifacts env tm td fs1 = some as →
      chunk_audio_file env tm p td = .error e →
      (runFiles env tm td T (fs1 ++ p :: fs2) i cur).1 = .error e
      ∧ (runFiles env tm td T (fs1 ++ p :: fs2) i cur).2.1 = as
  | [], as, p, fs2, i, cur => by
    intro h1 h2
    simp [plannedArtifacts] at h1
    subst h1
    simp [runFiles, h2]
  | q :: fs1', as, p, fs2, i, cur => by
    intro h1 h2
    unfold plannedArtifacts at h1
    cases hcq : chunk_audio_file env tm q td with
    | error e' => rw [hcq] at h1; exact absurd h1 (by simp)
    | ok segs =>
      rw [hcq] at h1
      simp only [Option.map] at h1
      cases hp : plannedArtifacts env tm td fs1' with
      | none => rw [hp] at h1; exact absurd h1 (by simp)
      | some as' =>
        rw [hp] at h1
        simp at h1
        have ih := runFiles_abort env tm td T e fs1' as' p fs2 (i + 1)
          (cur + segs.length) hp h2
        constructor
        · show (runFiles env tm td T (q :: (fs1' ++ p :: fs2)) i cur).1 = .error e
          unfold runFiles
          rw [hcq]
          simp only []
          rw [ih.1]
          rfl
        · show (runFiles env tm td T (q :: (fs1' ++ p :: fs2)) i cur).2.1 = as
          unfold runFiles
          rw [hcq]
          simp only []
          rw [ih.2, ← h1]

/-- C4 (amended): a decode failure is fatal for the whole batch, not only for
the failing file: the exception propagates out of process_sequential_files
(after workspace cleanup), the failing file contributes no transcription
attempt, and no later file in the list is attempted. -/
theorem decode_failure_aborts_batch (env : Env) (tm : Bool) (td : String)
    (fs1 fs2 : List String) (p : String) (e : String) (as : List String) (T : Nat)
    (hplan : planTotal env tm (fs1 ++ p :: fs2) = .ok T)
    (h1 : plannedArtifacts env tm td fs1 = some as)
    (h2 : chunk_audio_file env tm p td = .error e) :
    (process_sequential_files env tm td (fs1 ++ p :: fs2)).result = .error e
    ∧ (process_sequential_files env tm td (fs1 ++ p :: fs2)).attempts = as := by
  have hrun := runFiles_abort env tm td T e fs1 as p fs2 1 0 h1 h2
  unfold process_sequential_files
  rw [hplan]
  simp only []
  rw [hrun.1]
  exact ⟨rfl, hrun.2⟩

/-- Witness for C4 (amended) at a concrete batch of three files whose middle
file cannot be decoded. -/
theorem decode_failure_aborts_batch_witness :
    (process_sequential_files envBadDecode false ("/tmp/w")
        ([("g_1.m4a")] ++ ("bad_1.m4a") :: [("g_2.m4a")])).result = .error ("decode")
    ∧ (process_sequential_files envBadDecode false ("/tmp/w")
        ([("g_1.m4a")] ++ ("bad_1.m4a") :: [("g_2.m4a")])).attempts = [("g_1.m4a")] :=
  decode_failure_aborts_batch envBadDecode false ("/tmp/w")
    [("g_1.m4a")] [("g_2.m4a")] ("bad_1.m4a") ("decode") [("g_1.m4a")] 3
    (by decide) (by decide) (by decide)

/-- Counterexample for C4 as stated: the second file decodes and transcribes
fine on its own, yet after the first file fails to decode the run ends with
the propagated exception and no transcription attempt at all; the other
files are not attempted. -/
theorem decode_failure_counterexample :
    chunk_audio_file envBadDecode false ("a_2.m4a") ("/tmp/w")
      = .ok [⟨("a_2.m4a"), 1000⟩]
    ∧ (process_sequential_files envBadDecode false ("/tmp/w")
        [("bad_1.m4a"), ("a_2.m4a")]).result = .error ("decode")
    ∧ (process_sequential_files envBadDecode false ("/tmp/w")
        [("bad_1.m4a"), ("a_2.m4a")]).attempts = [] := by
  exact ⟨by decide, by decide, by decide⟩

/-! ### Claim C6: progress accounting. -/

theorem planTotal_cons (env : Env) (tm : Bool) (p : String) (rest : List String)
    (S : Nat) (h : planTotal env tm (p :: rest) = .ok S) :
    ∃ c S', get_chunk_count env tm p = .ok c ∧ planTotal env tm rest = .ok S'
      ∧ S = c + S' := by
  unfold planTotal at h
  cases hg : get_chunk_count env tm p with
  | error e => rw [hg] at h; exact absurd h (by simp [Bind.bind, Except.bind])
  | ok c =>
    rw [hg] at h
    cases hr : planTotal env tm rest with
    | error e => rw [hr] at h; exact absurd h (by simp [Bind.bind, Except.bind])
    | ok S' =>
      rw [hr] at h
      simp [Bind.bind, Except.bind] at h
      exact ⟨c, S', rfl, rfl, h.symm⟩

theorem runFiles_events_eq (env : Env) (tm : Bool) (td : String) (T : Nat) :
    ∀ (fs : List String) (i cur : Nat),
      (runFiles env tm td T fs i cur).2.2
        = (List.range (runFiles env tm td T fs i cur).2.1.length).map
            fun j => (cur + j + 1, T)
  | [], i, cur => by simp [runFiles]
  | p :: rest, i, cur => by
    cases hc : chunk_audio_file env tm p td with
    | error e => simp [runFiles, hc]
    | ok segs =>
      have ih := runFiles_events_eq env tm td T rest (i + 1) (cur + segs.length)
      unfold runFiles
      rw [hc]
      simp only []
      rw [ih]
      simp only [List.length_append, List.length_map]
      rw [List.range_add, List.map_append, List.map_map]
      congr 1
      have hfg : (fun j => (cur + segs.length + j + 1, T))
          = ((fun j => (cur + j + 1, T)) ∘ fun x => segs.length + x) := by
        funext j
        simp [Function.comp, Prod.ext_iff]
        omega
      rw [hfg]

theorem runFiles_attempts_le (env : Env) (tm : Bool) (td : String) (T : Nat) :
    ∀ (fs : List String) (i cur S : Nat), planTotal env tm fs = .ok S →
      (runFiles env tm td T fs i cur).2.1.length ≤ S
  | [], i, cur, S => by
    intro _
    simp [runFiles]
  | p :: rest, i, cur, S => by
    intro h
    rcases planTotal_cons env tm p rest S h with ⟨c, S', hg, hr, rfl⟩
    cases hc : chunk_audio_file env tm p td with
    | error e => simp [runFiles, hc]
    | ok segs =>
      have ih := runFiles_attempts_le env tm td T rest (i + 1) (cur + segs.length) S' hr
      have hlen := chunk_len_eq_count env tm p td c segs hg hc
      unfold runFiles
      rw [hc]
      simp only [List.length_append, List.length_map]
      omega

theorem chunkCounts_sum (env : Env) (tm : Bool) :
    ∀ (fs : List String) (cs : List Nat), chunkCounts env tm fs = .ok cs →
      planTotal env tm fs = .ok cs.sum
  | [], cs => by
    intro h
    simp [chunkCounts] at h
    subst h
    simp [planTotal]
  | p :: rest, cs => by
    intro h
    unfold chunkCounts at h
    cases hg : get_chunk_count env tm p with
    | error e => rw [hg] at h; exact absurd h (by simp [Bind.bind, Except.bind])
    | ok c =>
      rw [hg] at h
      cases hr : chunkCounts env tm rest with
      | error e => rw [hr] at h; exact absurd h (by simp [Bind.bind, Except.bind])
      | ok cs' =>
        rw [hr] at h
        simp [Bind.bind, Except.bind] at h
        have ih := chunkCounts_sum env tm rest cs' hr
        subst h
        simp [planTotal, Bind.bind, Except.bind, hg, ih]

/-- C6: once planning returns a total T, the run records total = T, T is the
sum of the per-file planned segment counts, the progress counter goes 1, 2,
... up to the number of attempted segments (one step per attempted segment
regardless of outcome, hence monotonically non-decreasing from zero, each
event carrying the unchanged total T), and the attempted count never exceeds
T. -/
theorem progress_accounting (env : Env) (tm : Bool) (td : String)
    (files : List String) (T : Nat)
    (hplan : planTotal env tm files = .ok T) :
    (process_sequential_files env tm td files).total = some T
    ∧ (∀ cs, chunkCounts env tm files = .ok cs → T = cs.sum)
    ∧ (process_sequential_files env tm td files).events
        = (List.range (process_sequential_files env tm td files).attempts.length).map
            (fun j => (j + 1, T))
    ∧ (process_sequential_files env tm td files).attempts.length ≤ T := by
  unfold process_sequential_files
  rw [hplan]
  simp only []
  refine ⟨by trivial, ?_, ?_, ?_⟩
  · intro cs hcs
    have hsum := chunkCounts_sum env tm files cs hcs
    exact Except.ok.inj (hplan.symm.trans hsum)
  · have hev := runFiles_events_eq env tm td T files 1 0
    simpa using hev
  · exact runFiles_attempts_le env tm td T files 1 0 T hplan

/-- Witness for C6 at a concrete two-file run. -/
theorem progress_accounting_witness :
    (process_sequential_files envOkHi false ("/tmp/w")
        [("b_1.m4a"), ("b_2.m4a")]).total = some 2
    ∧ (process_sequential_files envOkHi false ("/tmp/w")
        [("b_1.m4a"), ("b_2.m4a")]).attempts.length ≤ 2 :=
  ⟨(progress_accounting envOkHi false ("/tmp/w") [("b_1.m4a"), ("b_2.m4a")] 2
      (by decide)).1,
   (progress_accounting envOkHi false ("/tmp/w") [("b_1.m4a"), ("b_2.m4a")] 2
      (by decide)).2.2.2⟩

/-! ### Claim C7: exit behavior of the CLI. -/

/-- C7 (code evidence): with an empty directory main returns None (not a
failure code) and writes no output file, and the module bottom discards the
value main returns without calling sys.exit, so the interpreter exit status
is 0 on that path and also on the unrecoverable-error path where main itself
returns 1; the success path does write both output files. -/
theorem main_exit_status :
    mainModel envEmptyDir false ("meet") ("/tmp/w") = ⟨none, false, false⟩
    ∧ scriptExitCode envEmptyDir false ("meet") ("/tmp/w") = 0
    ∧ mainModel envBadListed false ("bad") ("/tmp/w") = ⟨some 1, false, false⟩
    ∧ scriptExitCode envBadListed false ("bad") ("/tmp/w") = 0
    ∧ mainModel envOkListed false ("b") ("/tmp/w") = ⟨none, true, true⟩ := by
  exact ⟨by decide, by decide, by decide, by decide, by decide⟩

end AudioTranscriber
